import Mathlib

/-!
Shallow embedding of the falling-tiles arcade game (src/game.js).

Numbers are modelled as exact rationals (ℚ); JS numbers in this program stay
well inside the range where float and rational arithmetic agree on every
comparison the claims are about.  The canvas size is the initial
`let width = 800, height = 600` of the source.  The cosmetic per-tile fields
`color` and the random string `id` take part in no game logic and are omitted
from the Tile record.  `Math.random()` draws are passed in explicitly as a
`Rands` record of values in [0, 1).  DOM / audio side effects are modelled as
an emitted list of events (`hit`, `miss`, `gameOver score`), matching the
calls `playHitSound`, `playMissSound`, `playDeathSound`/overlay display.
-/

namespace HittingTiles

/-- Field width, from `let width = 800` in the source. -/
def width : ℚ := 800

/-- Field height, from `let height = 600` in the source. -/
def height : ℚ := 600

/-- Hit zone near bottom, `const hitZoneHeight = 90`. -/
def hitZoneHeight : ℚ := 90

/-- One entry of the `difficultySettings` object. -/
structure DifficultySetting where
  spawnInterval : ℚ
  tileSpeed : ℚ
  lives : ℤ
  minMult : ℚ
  maxMult : ℚ
deriving DecidableEq

def normalSetting : DifficultySetting :=
  { spawnInterval := 900, tileSpeed := 110, lives := 3, minMult := 0.95, maxMult := 1.45 }

/-- The `difficultySettings` object: property lookup by name. -/
def difficultySettings (mode : String) : Option DifficultySetting :=
  if mode = "easy" then
    some { spawnInterval := 1300, tileSpeed := 70, lives := 5, minMult := 0.85, maxMult := 1.15 }
  else if mode = "normal" then some normalSetting
  else if mode = "hard" then
    some { spawnInterval := 650, tileSpeed := 160, lives := 2, minMult := 1.05, maxMult := 1.9 }
  else none

/-- `difficultySettings[mode] || difficultySettings.normal` (fallback for unknown names). -/
def lookupDifficulty (mode : String) : DifficultySetting :=
  (difficultySettings mode).getD normalSetting

/-- A falling tile (class `Tile`); `color` and `id` are cosmetic and omitted. -/
structure Tile where
  x : ℚ
  y : ℚ
  w : ℚ
  h : ℚ
  speed : ℚ
deriving DecidableEq

/-- `Tile.update(dt)`: `this.y += this.speed * dt`. -/
def Tile.update (t : Tile) (dt : ℚ) : Tile :=
  { t with y := t.y + t.speed * dt }

/-- `Tile.isPointInside(px, py)`. -/
def Tile.isPointInside (t : Tile) (px py : ℚ) : Bool :=
  decide (px ≥ t.x) && decide (px ≤ t.x + t.w) && decide (py ≥ t.y) && decide (py ≤ t.y + t.h)

/-- Bottom edge of a tile, the quantity `t.y + t.h` used by the keydown handler. -/
def Tile.bottom (t : Tile) : ℚ := t.y + t.h

/-- Side effects signalled to the audio / UI collaborators. -/
inductive GEvent where
  | hit : GEvent
  | miss : GEvent
  | gameOver : ℕ → GEvent
deriving DecidableEq

def isGameOver : GEvent → Bool
  | GEvent.gameOver _ => true
  | _ => false

/-- The module-level mutable game state of src/game.js. -/
structure GState where
  tiles : List Tile
  lastSpawn : ℚ
  spawnInterval : ℚ
  tileSpeed : ℚ
  score : ℕ
  lives : ℤ
  running : Bool
  lastTime : ℚ
  difficulty : String
  flashTime : ℚ
deriving DecidableEq

/-- One `Math.random()` draw per random expression of `spawnTile`. -/
structure Rands where
  r1 : ℚ
  r2 : ℚ
  r3 : ℚ
  r4 : ℚ
deriving DecidableEq

/-- Each `Math.random()` result lies in [0, 1). -/
def Rands.Valid (r : Rands) : Prop :=
  0 ≤ r.r1 ∧ r.r1 < 1 ∧ 0 ≤ r.r2 ∧ r.r2 < 1 ∧ 0 ≤ r.r3 ∧ r.r3 < 1 ∧ 0 ≤ r.r4 ∧ r.r4 < 1

instance (r : Rands) : Decidable r.Valid := by
  unfold Rands.Valid
  infer_instance

/-- `Math.round` on the (positive) quantities this program rounds. -/
def jsRound (q : ℚ) : ℤ := ⌊q + 1 / 2⌋

/-- `applyDifficulty(mode, resetCurrent)`. -/
def applyDifficulty (mode : String) (resetCurrent : Bool) (st : GState) : GState :=
  let s := lookupDifficulty mode
  { st with
    spawnInterval := s.spawnInterval
    tileSpeed := s.tileSpeed
    lives := if resetCurrent then s.lives else st.lives }

/-- The tile built by `spawnTile()` from the current state and four random draws. -/
def newTileOf (r : Rands) (st : GState) : Tile :=
  let w := max 40 (min 100 (width * (0.08 + r.r1 * 0.07)))
  let h : ℚ := max 24 ((jsRound (w * (0.5 + r.r2 * 0.6)) : ℤ) : ℚ)
  let x := 16 + r.r3 * (width - w - 16 * 2)
  let s := lookupDifficulty st.difficulty
  let mult := s.minMult + r.r4 * (s.maxMult - s.minMult)
  { x := x, y := -h - 10, w := w, h := h, speed := st.tileSpeed * mult }

/-- `spawnTile()`: push a new tile at the end of the collection. -/
def spawnTile (r : Rands) (st : GState) : GState :=
  { st with tiles := st.tiles ++ [newTileOf r st] }

/-- `endGame()`: stop the run and signal game over with the final score. -/
def endGame (st : GState) : GState × List GEvent :=
  ({ st with running := false }, [GEvent.gameOver st.score])

/-- `penalizeMiss()`: lose a life, flash, escalate difficulty, maybe end the game. -/
def penalizeMiss (st : GState) : GState × List GEvent :=
  let st1 := { st with
    lives := st.lives - 1
    flashTime := 0.22
    tileSpeed := st.tileSpeed * 1.06
    spawnInterval := if st.spawnInterval > 280 then st.spawnInterval * 0.92 else st.spawnInterval }
  if st1.lives ≤ 0 then
    let p := endGame st1
    (p.1, GEvent.miss :: p.2)
  else (st1, [GEvent.miss])

/-- The spawn logic at the top of `update(dt)`. -/
def spawnStep (dt : ℚ) (r : Rands) (st : GState) : GState :=
  let acc := st.lastSpawn + dt * 1000
  if acc > st.spawnInterval then spawnTile r { st with lastSpawn := 0 }
  else { st with lastSpawn := acc }

/-- The tile loop of `update(dt)`: `for (let i = tiles.length - 1; i >= 0; i--)`.
The loop runs from the last index down to 0, so later list elements are
processed first; `splice(i, 1)` removes exactly the current element. -/
def fallLoop (dt : ℚ) : List Tile → GState → GState × List GEvent
  | [], st => ({ st with tiles := [] }, [])
  | t :: rest, st =>
    let p := fallLoop dt rest st
    let t2 := t.update dt
    if t2.y > height then
      let st2 := { p.1 with lives := p.1.lives - 1 }
      if st2.lives ≤ 0 then
        let q := endGame st2
        (q.1, p.2 ++ GEvent.miss :: q.2)
      else (st2, p.2 ++ [GEvent.miss])
    else
      ({ p.1 with tiles := t2 :: p.1.tiles }, p.2)

/-- `update(dt)`: spawn step followed by the motion / miss-detection loop. -/
def update (dt : ℚ) (r : Rands) (st : GState) : GState × List GEvent :=
  let st1 := spawnStep dt r st
  fallLoop dt st1.tiles st1

/-- The elapsed-seconds value computed by `gameLoop(ts)`:
`if (!lastTime) lastTime = ts; const dt = (ts - lastTime) / 1000`. -/
def dtOf (st : GState) (ts : ℚ) : ℚ :=
  if st.lastTime = 0 then 0 else (ts - st.lastTime) / 1000

/-- One invocation of `gameLoop(ts)` (the per-frame tick). -/
def gameLoop (ts : ℚ) (r : Rands) (st : GState) : GState × List GEvent :=
  if st.running then
    let dt := dtOf st ts
    let p := update dt r { st with lastTime := ts }
    ({ p.1 with
        flashTime := if p.1.flashTime > 0 then max 0 (p.1.flashTime - dt) else p.1.flashTime },
      p.2)
  else (st, [])

/-- The scan of the canvas click handler: walk indices from the end toward 0 and
remove the first tile containing the point.  Returns the surviving list on a
hit, `none` when no tile contains the point. -/
def clickScan (px py : ℚ) : List Tile → Option (List Tile)
  | [] => none
  | t :: rest =>
    match clickScan px py rest with
    | some rest2 => some (t :: rest2)
    | none => if t.isPointInside px py then some rest else none

/-- The canvas click handler (pointer input). -/
def resolvePointer (px py : ℚ) (st : GState) : GState × List GEvent :=
  if st.running then
    match clickScan px py st.tiles with
    | some tiles2 => ({ st with tiles := tiles2, score := st.score + 1 }, [GEvent.hit])
    | none => penalizeMiss st
  else (st, [])

/-- The in-zone test of the keydown handler: `t.y + t.h >= hitY && t.y <= height`. -/
def inZone (hitY : ℚ) (t : Tile) : Bool :=
  decide (t.y + t.h ≥ hitY) && decide (t.y ≤ height)

/-- The candidate search of the keydown handler: ascending index scan keeping
the strictly greatest `t.y + t.h` among tiles overlapping the hit zone
(`bestY` starts at `-Infinity`, modelled by the `none` accumulator). -/
def hitScanAux (hitY : ℚ) : List Tile → ℕ → Option (ℕ × ℚ) → Option (ℕ × ℚ)
  | [], _, best => best
  | t :: rest, i, best =>
    let cand := inZone hitY t && (match best with
      | none => true
      | some p => decide (t.y + t.h > p.2))
    hitScanAux hitY rest (i + 1) (if cand then some (i, t.y + t.h) else best)

/-- The Space / ArrowDown branch of the keydown handler while running. -/
def resolveKeyHit (st : GState) : GState × List GEvent :=
  if st.running then
    match hitScanAux (height - hitZoneHeight) st.tiles 0 none with
    | some p =>
      ({ st with
          tiles := st.tiles.eraseIdx p.1
          score := st.score + 1
          tileSpeed := st.tileSpeed * 1.002
          spawnInterval :=
            if st.spawnInterval > 380 then st.spawnInterval * 0.998 else st.spawnInterval },
        [GEvent.hit])
    | none => penalizeMiss st
  else (st, [])

/-- `startGame()`: full reset from the chosen difficulty, then run. -/
def startGame (st : GState) : GState :=
  let st1 := applyDifficulty st.difficulty true { st with tiles := [], score := 0 }
  { st1 with lastSpawn := 0, lastTime := 0, running := true }

/-- The Enter branch of the keydown handler: start only when not running;
while running, Enter matches neither `Space` nor `ArrowDown`, so the handler
changes nothing. -/
def keyStart (st : GState) : GState × List GEvent :=
  if st.running then (st, []) else (startGame st, [])

/-- The restart button handler with the overlay difficulty chooser value. -/
def restartClick (chosen : String) (st : GState) : GState × List GEvent :=
  let st1 := applyDifficulty chosen true { st with difficulty := chosen }
  (startGame st1, [])

/-- The difficulty selector change handler. -/
def changeDifficulty (d : String) (st : GState) : GState :=
  let st1 := { st with difficulty := d }
  if st1.running then
    let s := lookupDifficulty d
    { st1 with spawnInterval := s.spawnInterval, tileSpeed := s.tileSpeed }
  else applyDifficulty d true st1

/-- The module-level initial values of the game variables, before `init()` runs. -/
def rawInitState : GState :=
  { tiles := [], lastSpawn := 0, spawnInterval := 900, tileSpeed := 100, score := 0,
    lives := 3, running := false, lastTime := 0, difficulty := "normal", flashTime := 0 }

/-- The state after `init()` (which calls `startGame()` immediately). -/
def initState : GState := startGame rawInitState

/-- States reachable from page load through the external operations: frame
ticks, pointer clicks, key hits, Enter-start, restart and difficulty
selection.  Every `Math.random()` draw lies in [0, 1). -/
inductive Reachable : GState → Prop where
  | init : Reachable initState
  | step_tick (ts : ℚ) (r : Rands) {s : GState} :
      r.Valid → Reachable s → Reachable (gameLoop ts r s).1
  | step_pointer (px py : ℚ) {s : GState} :
      Reachable s → Reachable (resolvePointer px py s).1
  | step_keyHit {s : GState} : Reachable s → Reachable (resolveKeyHit s).1
  | step_keyStart {s : GState} : Reachable s → Reachable (keyStart s).1
  | step_restart (d : String) {s : GState} :
      Reachable s → Reachable (restartClick d s).1
  | step_changeDiff (d : String) {s : GState} :
      Reachable s → Reachable (changeDifficulty d s)

/-! ### Basic lemmas about the embedded operations -/

/-! ### Concrete states used by scenarios, witnesses and counterexamples -/

/-- The difficulty bounds every reachable state satisfies: the spawn interval
stays above 257.6 ms (= 0.92 times the 280 ms escalation threshold) and the
base fall speed stays strictly positive. -/
def DiffInv (st : GState) : Prop :=
  1288 / 5 < st.spawnInterval ∧ 0 < st.tileSpeed

def rand0 : Rands := { r1 := 0, r2 := 0, r3 := 0, r4 := 1 / 10 }

def trace0 : GState :=
  { tiles := [], lastSpawn := 0, spawnInterval := 900, tileSpeed := 110, score := 0,
    lives := 3, running := true, lastTime := 0, difficulty := "normal", flashTime := 0 }

def trace1 : GState :=
  { trace0 with lives := 2, flashTime := 11 / 50, tileSpeed := 583 / 5, spawnInterval := 828 }

def trace2 : GState :=
  { trace0 with
      lives := 1
      flashTime := 11 / 50
      tileSpeed := 30899 / 250
      spawnInterval := 19044 / 25 }

def trace3 : GState := { trace2 with lastTime := 1000 }

def tileA1 : Tile := { x := 16, y := 35548 / 625, w := 64, h := 32, speed := 30899 / 250 }

def trace4 : GState :=
  { trace3 with tiles := [tileA1], lastSpawn := 0, lastTime := 1800, flashTime := 0 }

def tileA2 : Tile := { tileA1 with y := 97346 / 625 }

def trace5 : GState := { trace4 with tiles := [tileA2, tileA1], lastTime := 2600 }

def tileC1 : Tile := { tileA1 with y := 1347253 / 2500 }

def trace6 : GState :=
  { trace5 with tiles := [tileC1], lives := -1, running := false, lastTime := 7300 }

def scenarioB : GState :=
  { rawInitState with
      running := true
      tiles := [{ x := 100, y := 601, w := 50, h := 30, speed := 100 }] }

def pointTileA : Tile := { x := 0, y := 0, w := 50, h := 50, speed := 10 }

def pointTileB : Tile := { x := 0, y := 0, w := 50, h := 50, speed := 12 }

def scenarioD : GState :=
  { rawInitState with running := true, tiles := [pointTileA, pointTileB] }

def frameTile : Tile := { x := 200, y := 300, w := 60, h := 40, speed := 120 }

def frameState : GState :=
  { rawInitState with running := true, tiles := [frameTile], score := 7 }

def zoneTile : Tile := { x := 0, y := 520, w := 40, h := 40, speed := 100 }

def keyState : GState :=
  { rawInitState with
      running := true
      spawnInterval := 761 / 2
      tiles := [zoneTile] }

def lowTile : Tile := { x := 0, y := 0, w := 40, h := 24, speed := 50 }

def keyState2 : GState := { rawInitState with running := true, tiles := [lowTile] }

def missState : GState :=
  { rawInitState with running := true, lives := 5, spawnInterval := 281 }

def backTile : Tile := { x := 0, y := 100, w := 40, h := 30, speed := 100 }

def backState : GState :=
  { rawInitState with running := true, lastTime := 100, tiles := [backTile] }

def overTile1 : Tile := { x := 10, y := 601, w := 40, h := 30, speed := 50 }

def overTile2 : Tile := { x := 10, y := 602, w := 40, h := 30, speed := 50 }

def overState1 : GState :=
  { rawInitState with running := true, lives := 1, tiles := [overTile1] }

def overState2 : GState :=
  { rawInitState with running := true, lives := 1, tiles := [overTile1, overTile2] }

lemma lookup_easy :
    lookupDifficulty "easy" =
      { spawnInterval := 1300, tileSpeed := 70, lives := 5, minMult := 0.85, maxMult := 1.15 } :=
  rfl

lemma lookup_normal : lookupDifficulty "normal" = normalSetting := rfl

lemma lookup_hard :
    lookupDifficulty "hard" =
      { spawnInterval := 650, tileSpeed := 160, lives := 2, minMult := 1.05, maxMult := 1.9 } :=
  rfl

/-- Any name resolves to one of the three profiles (unknown names fall back to normal). -/
lemma lookupDifficulty_cases (mode : String) :
    lookupDifficulty mode =
      { spawnInterval := 1300, tileSpeed := 70, lives := 5, minMult := 0.85, maxMult := 1.15 } ∨
    lookupDifficulty mode = normalSetting ∨
    lookupDifficulty mode =
      { spawnInterval := 650, tileSpeed := 160, lives := 2, minMult := 1.05, maxMult := 1.9 } := by
  unfold lookupDifficulty difficultySettings
  split_ifs <;> simp [normalSetting]

/-- Numeric bounds satisfied by every profile the lookup can return. -/
lemma lookupDifficulty_bounds (mode : String) :
    1288 / 5 < (lookupDifficulty mode).spawnInterval ∧
    0 < (lookupDifficulty mode).tileSpeed ∧
    0 < (lookupDifficulty mode).lives := by
  rcases lookupDifficulty_cases mode with h | h | h <;> rw [h] <;> norm_num [normalSetting]

lemma penalizeMiss_proj (st : GState) :
    (penalizeMiss st).1.lives = st.lives - 1 ∧
    (penalizeMiss st).1.tileSpeed = st.tileSpeed * 1.06 ∧
    (penalizeMiss st).1.spawnInterval =
      (if st.spawnInterval > 280 then st.spawnInterval * 0.92 else st.spawnInterval) ∧
    (penalizeMiss st).1.running = (if st.lives - 1 ≤ 0 then false else st.running) ∧
    (penalizeMiss st).1.score = st.score ∧
    (penalizeMiss st).1.tiles = st.tiles ∧
    (penalizeMiss st).1.lastSpawn = st.lastSpawn ∧
    (penalizeMiss st).1.lastTime = st.lastTime ∧
    (penalizeMiss st).1.difficulty = st.difficulty ∧
    (penalizeMiss st).1.flashTime = 0.22 := by
  simp only [penalizeMiss, endGame]
  split_ifs <;> simp_all

lemma startGame_proj (st : GState) :
    startGame st =
      { st with
          tiles := []
          score := 0
          spawnInterval := (lookupDifficulty st.difficulty).spawnInterval
          tileSpeed := (lookupDifficulty st.difficulty).tileSpeed
          lives := (lookupDifficulty st.difficulty).lives
          lastSpawn := 0
          lastTime := 0
          running := true } := by
  simp [startGame, applyDifficulty]

lemma spawnStep_fields (dt : ℚ) (r : Rands) (st : GState) :
    (spawnStep dt r st).score = st.score ∧
    (spawnStep dt r st).lives = st.lives ∧
    (spawnStep dt r st).running = st.running ∧
    (spawnStep dt r st).spawnInterval = st.spawnInterval ∧
    (spawnStep dt r st).tileSpeed = st.tileSpeed ∧
    (spawnStep dt r st).lastTime = st.lastTime ∧
    (spawnStep dt r st).difficulty = st.difficulty ∧
    (spawnStep dt r st).flashTime = st.flashTime := by
  simp only [spawnStep, spawnTile]
  split_ifs <;> simp

lemma spawnStep_tiles_cases (dt : ℚ) (r : Rands) (st : GState) :
    (st.lastSpawn + dt * 1000 > st.spawnInterval →
      (spawnStep dt r st).tiles = st.tiles ++ [newTileOf r st] ∧
      (spawnStep dt r st).lastSpawn = 0) ∧
    (¬ st.lastSpawn + dt * 1000 > st.spawnInterval →
      (spawnStep dt r st).tiles = st.tiles ∧
      (spawnStep dt r st).lastSpawn = st.lastSpawn + dt * 1000) := by
  have hnew : newTileOf r { st with lastSpawn := 0 } = newTileOf r st := rfl
  constructor
  · intro h
    simp only [spawnStep, spawnTile]
    rw [if_pos h]
    simp [hnew]
  · intro h
    simp only [spawnStep, spawnTile]
    rw [if_neg h]
    simp

lemma spawnStep_tiles_length (dt : ℚ) (r : Rands) (st : GState) :
    (spawnStep dt r st).tiles.length ≤ st.tiles.length + 1 := by
  simp only [spawnStep, spawnTile]
  split_ifs <;> simp

/-- The per-tile loop of `update` only rebuilds `tiles` and decrements `lives` /
clears `running`; every other field is untouched. -/
lemma fallLoop_fields (dt : ℚ) (ts : List Tile) (st : GState) :
    (fallLoop dt ts st).1.score = st.score ∧
    (fallLoop dt ts st).1.spawnInterval = st.spawnInterval ∧
    (fallLoop dt ts st).1.tileSpeed = st.tileSpeed ∧
    (fallLoop dt ts st).1.lastSpawn = st.lastSpawn ∧
    (fallLoop dt ts st).1.lastTime = st.lastTime ∧
    (fallLoop dt ts st).1.difficulty = st.difficulty ∧
    (fallLoop dt ts st).1.flashTime = st.flashTime := by
  induction ts with
  | nil => simp [fallLoop]
  | cons t rest ih =>
    simp only [fallLoop, endGame]
    split_ifs <;> simp_all

/-- Each tile past the bottom after the motion step costs exactly one life. -/
lemma fallLoop_lives (dt : ℚ) (ts : List Tile) (st : GState) :
    (fallLoop dt ts st).1.lives =
      st.lives - ts.countP (fun t => decide (height < (t.update dt).y)) := by
  induction ts with
  | nil => simp [fallLoop]
  | cons t rest ih =>
    simp only [fallLoop, endGame, List.countP_cons, decide_eq_true_eq, gt_iff_lt, ih]
    split_ifs <;> simp <;> omega

/-- The surviving collection is exactly the moved tiles that did not cross. -/
lemma fallLoop_tiles (dt : ℚ) (ts : List Tile) (st : GState) :
    (fallLoop dt ts st).1.tiles =
      (ts.map (fun t => t.update dt)).filter (fun t => !decide (height < t.y)) := by
  induction ts with
  | nil => simp [fallLoop]
  | cons t rest ih =>
    simp only [fallLoop, endGame, List.map_cons, List.filter_cons, gt_iff_lt, ih]
    split_ifs <;> simp_all

/-- `running` is cleared exactly when some removal observed `lives ≤ 0`. -/
lemma fallLoop_running (dt : ℚ) (ts : List Tile) (st : GState) :
    (fallLoop dt ts st).1.running =
      if 1 ≤ ts.countP (fun t => decide (height < (t.update dt).y)) ∧
          st.lives ≤ (ts.countP (fun t => decide (height < (t.update dt).y)) : ℤ)
      then false else st.running := by
  induction ts with
  | nil => simp [fallLoop]
  | cons t rest ih =>
    have hl := fallLoop_lives dt rest st
    simp only [fallLoop, endGame, List.countP_cons, decide_eq_true_eq, gt_iff_lt, ih, hl]
    split_ifs <;> first | rfl | (exfalso; omega)

lemma countP_gameOver_snoc2 (l : List GEvent) (n : ℕ) :
    List.countP isGameOver (l ++ [GEvent.miss, GEvent.gameOver n]) =
      List.countP isGameOver l + 1 := by
  simp [List.countP_append, List.countP_cons, isGameOver]

lemma countP_gameOver_snoc1 (l : List GEvent) :
    List.countP isGameOver (l ++ [GEvent.miss]) = List.countP isGameOver l := by
  simp [List.countP_append, List.countP_cons, isGameOver]

/-- Number of game-over signals emitted by the loop: one per removal that
observed `lives ≤ 0`. -/
lemma fallLoop_gameOvers (dt : ℚ) (ts : List Tile) (st : GState) :
    ((fallLoop dt ts st).2.countP isGameOver) =
      ts.countP (fun t => decide (height < (t.update dt).y)) -
        min (ts.countP (fun t => decide (height < (t.update dt).y))) (st.lives - 1).toNat := by
  induction ts with
  | nil => simp [fallLoop]
  | cons t rest ih =>
    have hl := fallLoop_lives dt rest st
    simp only [fallLoop, endGame, List.countP_cons, decide_eq_true_eq, gt_iff_lt, hl]
    by_cases hc : height < (t.update dt).y
    · simp only [if_pos hc]
      by_cases hl2 :
          st.lives - (rest.countP fun t => decide (height < (t.update dt).y)) - 1 ≤ 0
      · simp only [if_pos hl2]
        rw [countP_gameOver_snoc2, ih]
        omega
      · simp only [if_neg hl2]
        rw [countP_gameOver_snoc1, ih]
        omega
    · simp only [if_neg hc]
      rw [ih]
      omega

/-! ### The pointer-input scan -/

/-- If no tile contains the point, the reverse scan finds nothing. -/
lemma clickScan_eq_none (px py : ℚ) (ts : List Tile)
    (h : ∀ u ∈ ts, u.isPointInside px py = false) : clickScan px py ts = none := by
  induction ts with
  | nil => rfl
  | cons t rest ih =>
    have hr := ih fun u hu => h u (List.mem_cons_of_mem t hu)
    have ht := h t (List.mem_cons_self t rest)
    simp [clickScan, hr, ht]

/-- The reverse scan removes exactly the last tile containing the point. -/
lemma clickScan_removes_last (px py : ℚ) (pre post : List Tile) (u : Tile)
    (hu : u.isPointInside px py = true)
    (hpost : ∀ v ∈ post, v.isPointInside px py = false) :
    clickScan px py (pre ++ u :: post) = some (pre ++ post) := by
  induction pre with
  | nil => simp [clickScan, clickScan_eq_none px py post hpost, hu]
  | cons a pre ih => simp [clickScan, ih]

/-! ### The keydown candidate scan -/

lemma eraseIdx_concat (pre post : List Tile) (u : Tile) :
    (pre ++ u :: post).eraseIdx pre.length = pre ++ post := by
  induction pre with
  | nil => simp
  | cons a pre ih => simp [List.eraseIdx, ih]

/-- Full characterisation of the keydown candidate scan, generalised over the
starting index and the running best accumulator.  Either no tile beats the
accumulator (and every in-zone tile is bounded by it), or the result is the
first tile attaining the strict maximum of `t.y + t.h` among in-zone tiles
that beat the accumulator. -/
lemma hitScanAux_spec (hitY : ℚ) (ts : List Tile) :
    ∀ (k : ℕ) (best : Option (ℕ × ℚ)),
      (hitScanAux hitY ts k best = best ∧
        ∀ t ∈ ts, inZone hitY t = true → ∃ p : ℕ × ℚ, best = some p ∧ t.y + t.h ≤ p.2) ∨
      (∃ pre u post, ts = pre ++ u :: post ∧
        hitScanAux hitY ts k best = some (k + pre.length, u.y + u.h) ∧
        inZone hitY u = true ∧
        (∀ p : ℕ × ℚ, best = some p → p.2 < u.y + u.h) ∧
        (∀ v ∈ pre, inZone hitY v = true → v.y + v.h < u.y + u.h) ∧
        (∀ v ∈ post, inZone hitY v = true → v.y + v.h ≤ u.y + u.h)) := by
  induction ts with
  | nil =>
    intro k best
    left
    exact ⟨rfl, by simp⟩
  | cons t rest ih =>
    intro k best
    have step : ∀ b : Option (ℕ × ℚ),
        hitScanAux hitY (t :: rest) k b =
          hitScanAux hitY rest (k + 1)
            (if (inZone hitY t && (match b with
                | none => true
                | some p => decide (t.y + t.h > p.2))) = true
             then some (k, t.y + t.h) else b) := by
      intro b
      simp only [hitScanAux]
    rcases best with _ | p
    · by_cases hz : inZone hitY t = true
      · -- the head tile becomes the new best
        have hb : (if (inZone hitY t && (true : Bool)) = true
            then some (k, t.y + t.h) else none) = some (k, t.y + t.h) := by simp [hz]
        rcases ih (k + 1) (some (k, t.y + t.h)) with ⟨h1, h2⟩ |
          ⟨pre, u, post, hdec, hres, hu, hbest, hpre, hpost⟩
        · right
          refine ⟨[], t, rest, by simp, ?_, hz, by simp, by simp, ?_⟩
          · rw [step, hb]
            simpa using h1
          · intro v hv hvz
            obtain ⟨q, hq, hle⟩ := h2 v hv hvz
            obtain rfl : (k, t.y + t.h) = q := by simpa using hq
            simpa using hle
        · right
          refine ⟨t :: pre, u, post, by simp [hdec], ?_, hu, by simp, ?_, hpost⟩
          · rw [step, hb, hres]
            have hlen : k + (t :: pre).length = k + 1 + pre.length := by
              simp only [List.length_cons]
              omega
            rw [hlen]
          · intro v hv hvz
            rcases List.mem_cons.mp hv with rfl | hv2
            · exact hbest (k, v.y + v.h) rfl
            · exact hpre v hv2 hvz
      · -- head tile not in zone, accumulator still empty
        have hb : (if (inZone hitY t && (true : Bool)) = true
            then some (k, t.y + t.h) else none) = none := by
          simp [Bool.not_eq_true] at hz
          simp [hz]
        rcases ih (k + 1) none with ⟨h1, h2⟩ |
          ⟨pre, u, post, hdec, hres, hu, hbest, hpre, hpost⟩
        · left
          constructor
          · rw [step, hb, h1]
          · intro v hv hvz
            rcases List.mem_cons.mp hv with rfl | hv2
            · exact absurd hvz (by simp [hz])
            · exact h2 v hv2 hvz
        · right
          refine ⟨t :: pre, u, post, by simp [hdec], ?_, hu, by simp, ?_, hpost⟩
          · rw [step, hb, hres]
            have hlen : k + (t :: pre).length = k + 1 + pre.length := by
              simp only [List.length_cons]
              omega
            rw [hlen]
          · intro v hv hvz
            rcases List.mem_cons.mp hv with rfl | hv2
            · exact absurd hvz (by simp [hz])
            · exact hpre v hv2 hvz
    · by_cases hz : inZone hitY t = true
      · by_cases hgt : p.2 < t.y + t.h
        · -- head tile beats the accumulator
          have hb : (if (inZone hitY t && decide (t.y + t.h > p.2)) = true
              then some (k, t.y + t.h) else some p) = some (k, t.y + t.h) := by
            simp [hz, hgt]
          rcases ih (k + 1) (some (k, t.y + t.h)) with ⟨h1, h2⟩ |
            ⟨pre, u, post, hdec, hres, hu, hbest, hpre, hpost⟩
          · right
            refine ⟨[], t, rest, by simp, ?_, hz, ?_, by simp, ?_⟩
            · rw [step, hb]
              simpa using h1
            · intro q hq
              obtain rfl : p = q := by simpa using hq
              exact hgt
            · intro v hv hvz
              obtain ⟨q, hq, hle⟩ := h2 v hv hvz
              obtain rfl : (k, t.y + t.h) = q := by simpa using hq
              simpa using hle
          · right
            refine ⟨t :: pre, u, post, by simp [hdec], ?_, hu, ?_, ?_, hpost⟩
            · rw [step, hb, hres]
              have hlen : k + (t :: pre).length = k + 1 + pre.length := by
                simp only [List.length_cons]
                omega
              rw [hlen]
            · intro q hq
              obtain rfl : p = q := by simpa using hq
              exact lt_trans hgt (hbest (k, t.y + t.h) rfl)
            · intro v hv hvz
              rcases List.mem_cons.mp hv with rfl | hv2
              · exact hbest (k, v.y + v.h) rfl
              · exact hpre v hv2 hvz
        · -- head tile in zone but does not beat the accumulator
          have hb : (if (inZone hitY t && decide (t.y + t.h > p.2)) = true
              then some (k, t.y + t.h) else some p) = some p := by
            simp [hz, hgt]
          rcases ih (k + 1) (some p) with ⟨h1, h2⟩ |
            ⟨pre, u, post, hdec, hres, hu, hbest, hpre, hpost⟩
          · left
            constructor
            · rw [step, hb, h1]
            · intro v hv hvz
              rcases List.mem_cons.mp hv with rfl | hv2
              · exact ⟨p, rfl, not_lt.mp hgt⟩
              · exact h2 v hv2 hvz
          · right
            refine ⟨t :: pre, u, post, by simp [hdec], ?_, hu, hbest, ?_, hpost⟩
            · rw [step, hb, hres]
              have hlen : k + (t :: pre).length = k + 1 + pre.length := by
                simp only [List.length_cons]
                omega
              rw [hlen]
            · intro v hv hvz
              rcases List.mem_cons.mp hv with rfl | hv2
              · exact lt_of_le_of_lt (not_lt.mp hgt) (hbest p rfl)
              · exact hpre v hv2 hvz
      · -- head tile not in zone, accumulator kept
        have hb : (if (inZone hitY t && decide (t.y + t.h > p.2)) = true
            then some (k, t.y + t.h) else some p) = some p := by
          simp [Bool.not_eq_true] at hz
          simp [hz]
        rcases ih (k + 1) (some p) with ⟨h1, h2⟩ |
          ⟨pre, u, post, hdec, hres, hu, hbest, hpre, hpost⟩
        · left
          constructor
          · rw [step, hb, h1]
          · intro v hv hvz
            rcases List.mem_cons.mp hv with rfl | hv2
            · exact absurd hvz (by simp [hz])
            · exact h2 v hv2 hvz
        · right
          refine ⟨t :: pre, u, post, by simp [hdec], ?_, hu, hbest, ?_, hpost⟩
          · rw [step, hb, hres]
            have hlen : k + (t :: pre).length = k + 1 + pre.length := by
              simp only [List.length_cons]
              omega
            rw [hlen]
          · intro v hv hvz
            rcases List.mem_cons.mp hv with rfl | hv2
            · exact absurd hvz (by simp [hz])
            · exact hpre v hv2 hvz

/-! ### The lives and running invariant -/

lemma update_inv_lives (dt : ℚ) (r : Rands) (st : GState)
    (h : 0 < st.lives ∨ st.running = false) :
    0 < (update dt r st).1.lives ∨ (update dt r st).1.running = false := by
  have hsf := spawnStep_fields dt r st
  have hl := fallLoop_lives dt (spawnStep dt r st).tiles (spawnStep dt r st)
  have hr := fallLoop_running dt (spawnStep dt r st).tiles (spawnStep dt r st)
  simp only [update]
  rw [hl, hr, hsf.2.1, hsf.2.2.1]
  split_ifs with hc
  · exact Or.inr rfl
  · rcases h with h | h
    · left
      omega
    · right
      exact h

lemma gameLoop_inv_lives (ts : ℚ) (r : Rands) (st : GState)
    (h : 0 < st.lives ∨ st.running = false) :
    0 < (gameLoop ts r st).1.lives ∨ (gameLoop ts r st).1.running = false := by
  simp only [gameLoop]
  by_cases hr : st.running = true
  · rw [if_pos hr]
    have h2 := update_inv_lives (dtOf st ts) r { st with lastTime := ts } (by simpa using h)
    simpa using h2
  · rw [if_neg hr]
    exact Or.inr (by simpa using hr)

lemma penalizeMiss_inv_lives (st : GState) :
    0 < (penalizeMiss st).1.lives ∨ (penalizeMiss st).1.running = false := by
  obtain ⟨hl, -, -, hr, -⟩ := penalizeMiss_proj st
  rw [hl, hr]
  split_ifs with hc
  · exact Or.inr rfl
  · left
    omega

lemma resolvePointer_inv_lives (px py : ℚ) (st : GState)
    (h : 0 < st.lives ∨ st.running = false) :
    0 < (resolvePointer px py st).1.lives ∨ (resolvePointer px py st).1.running = false := by
  simp only [resolvePointer]
  by_cases hr : st.running = true
  · rw [if_pos hr]
    cases hcs : clickScan px py st.tiles with
    | some ts2 => simp only [hcs]; simpa using h
    | none => simp only [hcs]; exact penalizeMiss_inv_lives st
  · rw [if_neg hr]
    exact h

lemma resolveKeyHit_inv_lives (st : GState)
    (h : 0 < st.lives ∨ st.running = false) :
    0 < (resolveKeyHit st).1.lives ∨ (resolveKeyHit st).1.running = false := by
  simp only [resolveKeyHit]
  by_cases hr : st.running = true
  · rw [if_pos hr]
    cases hcs : hitScanAux (height - hitZoneHeight) st.tiles 0 none with
    | some p => simp only [hcs]; simpa using h
    | none => simp only [hcs]; exact penalizeMiss_inv_lives st
  · rw [if_neg hr]
    exact h

lemma startGame_inv_lives (st : GState) : 0 < (startGame st).lives := by
  rw [startGame_proj]
  simpa using (lookupDifficulty_bounds st.difficulty).2.2

lemma keyStart_inv_lives (st : GState)
    (h : 0 < st.lives ∨ st.running = false) :
    0 < (keyStart st).1.lives ∨ (keyStart st).1.running = false := by
  simp only [keyStart]
  by_cases hr : st.running = true
  · rw [if_pos hr]
    exact h
  · rw [if_neg hr]
    exact Or.inl (startGame_inv_lives st)

lemma restartClick_inv_lives (d : String) (st : GState) :
    0 < (restartClick d st).1.lives ∨ (restartClick d st).1.running = false := by
  simp only [restartClick]
  exact Or.inl (startGame_inv_lives _)

lemma changeDifficulty_inv_lives (d : String) (st : GState)
    (h : 0 < st.lives ∨ st.running = false) :
    0 < (changeDifficulty d st).lives ∨ (changeDifficulty d st).running = false := by
  simp only [changeDifficulty, applyDifficulty]
  split_ifs with hc
  · simpa using h
  · exact Or.inl (by simpa using (lookupDifficulty_bounds d).2.2)

/-- Invariant induction over all reachable states: while the game is running,
lives are strictly positive (equivalently, lives at or below zero force the
running flag off). -/
lemma reachable_lives {s : GState} (h : Reachable s) :
    0 < s.lives ∨ s.running = false := by
  induction h with
  | init =>
    left
    simp only [initState, startGame_proj]
    simp [rawInitState, lookup_normal, normalSetting]
  | step_tick ts r hv _ ih => exact gameLoop_inv_lives ts r _ ih
  | step_pointer px py _ ih => exact resolvePointer_inv_lives px py _ ih
  | step_keyHit _ ih => exact resolveKeyHit_inv_lives _ ih
  | step_keyStart _ ih => exact keyStart_inv_lives _ ih
  | step_restart d _ ih => exact restartClick_inv_lives d _
  | step_changeDiff d _ ih => exact changeDifficulty_inv_lives d _ ih

/-! ### The difficulty-parameter bounds invariant -/

lemma penalizeMiss_inv_diff (st : GState) (h : DiffInv st) : DiffInv (penalizeMiss st).1 := by
  obtain ⟨hi, hs⟩ := h
  obtain ⟨-, hspd, hint, -⟩ := penalizeMiss_proj st
  constructor
  · rw [hint]
    split_ifs with hc
    · nlinarith
    · exact hi
  · rw [hspd]
    nlinarith

lemma update_inv_diff (dt : ℚ) (r : Rands) (st : GState) (h : DiffInv st) :
    DiffInv (update dt r st).1 := by
  have hsf := spawnStep_fields dt r st
  have hf := fallLoop_fields dt (spawnStep dt r st).tiles (spawnStep dt r st)
  simp only [update, DiffInv]
  rw [hf.2.1, hf.2.2.1, hsf.2.2.2.1, hsf.2.2.2.2.1]
  exact h

lemma gameLoop_inv_diff (ts : ℚ) (r : Rands) (st : GState) (h : DiffInv st) :
    DiffInv (gameLoop ts r st).1 := by
  simp only [gameLoop]
  by_cases hr : st.running = true
  · rw [if_pos hr]
    have h2 := update_inv_diff (dtOf st ts) r { st with lastTime := ts } (by simpa [DiffInv] using h)
    simpa [DiffInv] using h2
  · rw [if_neg hr]
    exact h

lemma resolvePointer_inv_diff (px py : ℚ) (st : GState) (h : DiffInv st) :
    DiffInv (resolvePointer px py st).1 := by
  simp only [resolvePointer]
  by_cases hr : st.running = true
  · rw [if_pos hr]
    cases hcs : clickScan px py st.tiles with
    | some ts2 => simp only [hcs]; simpa [DiffInv] using h
    | none => simp only [hcs]; exact penalizeMiss_inv_diff st h
  · rw [if_neg hr]
    exact h

lemma resolveKeyHit_inv_diff (st : GState) (h : DiffInv st) :
    DiffInv (resolveKeyHit st).1 := by
  obtain ⟨hi, hs⟩ := h
  simp only [resolveKeyHit]
  by_cases hr : st.running = true
  · rw [if_pos hr]
    cases hcs : hitScanAux (height - hitZoneHeight) st.tiles 0 none with
    | some p =>
      simp only [hcs]
      constructor
      · simp only
        split_ifs with hc
        · nlinarith
        · exact hi
      · simp only
        nlinarith
    | none => simp only [hcs]; exact penalizeMiss_inv_diff st ⟨hi, hs⟩
  · rw [if_neg hr]
    exact ⟨hi, hs⟩

lemma startGame_inv_diff (st : GState) : DiffInv (startGame st) := by
  rw [startGame_proj]
  constructor
  · simpa using (lookupDifficulty_bounds st.difficulty).1
  · simpa using (lookupDifficulty_bounds st.difficulty).2.1

lemma keyStart_inv_diff (st : GState) (h : DiffInv st) : DiffInv (keyStart st).1 := by
  simp only [keyStart]
  by_cases hr : st.running = true
  · rw [if_pos hr]
    exact h
  · rw [if_neg hr]
    exact startGame_inv_diff st

lemma restartClick_inv_diff (d : String) (st : GState) : DiffInv (restartClick d st).1 := by
  simp only [restartClick]
  exact startGame_inv_diff _

lemma changeDifficulty_inv_diff (d : String) (st : GState) : DiffInv (changeDifficulty d st) := by
  simp only [changeDifficulty, applyDifficulty, DiffInv]
  split_ifs with hc
  · exact ⟨by simpa using (lookupDifficulty_bounds d).1, by simpa using (lookupDifficulty_bounds d).2.1⟩
  · exact ⟨by simpa using (lookupDifficulty_bounds d).1, by simpa using (lookupDifficulty_bounds d).2.1⟩

/-- Invariant induction: the spawn interval of every reachable state exceeds
257.6 ms and the base fall speed is strictly positive. -/
lemma reachable_diff {s : GState} (h : Reachable s) : DiffInv s := by
  induction h with
  | init => exact startGame_inv_diff rawInitState
  | step_tick ts r hv _ ih => exact gameLoop_inv_diff ts r _ ih
  | step_pointer px py _ ih => exact resolvePointer_inv_diff px py _ ih
  | step_keyHit _ ih => exact resolveKeyHit_inv_diff _ ih
  | step_keyStart _ ih => exact keyStart_inv_diff _ ih
  | step_restart d _ ih => exact restartClick_inv_diff d _
  | step_changeDiff d _ ih => exact changeDifficulty_inv_diff d _

/-! ### A concrete reachable run

Normal difficulty, two miss-clicks (lives 3 to 1), then ticks at 1000 ms,
1800 ms, 2600 ms (spawning two tiles) and a long tick at 7300 ms in which both
airborne tiles cross the bottom in the same frame while a third one spawns. -/

lemma rand0_valid : rand0.Valid := by
  norm_num [Rands.Valid, rand0]

lemma initState_eq : initState = trace0 := by
  norm_num [initState, startGame, applyDifficulty, lookup_normal, normalSetting,
    rawInitState, trace0]

lemma trace_step1 : resolvePointer 0 0 trace0 = (trace1, [GEvent.miss]) := by
  norm_num [resolvePointer, clickScan, penalizeMiss, endGame, trace0, trace1]

lemma trace_step2 : resolvePointer 0 0 trace1 = (trace2, [GEvent.miss]) := by
  norm_num [resolvePointer, clickScan, penalizeMiss, endGame, trace0, trace1, trace2]

lemma trace_step3 : gameLoop 1000 rand0 trace2 = (trace3, []) := by
  norm_num [gameLoop, dtOf, update, spawnStep, fallLoop, trace0, trace2, trace3]

lemma trace_step4 : gameLoop 1800 rand0 trace3 = (trace4, []) := by
  norm_num [gameLoop, dtOf, update, spawnStep, spawnTile, newTileOf, jsRound,
    lookup_normal, normalSetting, fallLoop, Tile.update,
    height, width, trace0, trace2, trace3, trace4, tileA1, rand0]

lemma trace_step5 : gameLoop 2600 rand0 trace4 = (trace5, []) := by
  norm_num [gameLoop, dtOf, update, spawnStep, spawnTile, newTileOf, jsRound,
    lookup_normal, normalSetting, fallLoop, Tile.update,
    height, width, trace0, trace2, trace3, trace4, trace5, tileA1, tileA2, rand0]

lemma trace_step6 :
    gameLoop 7300 rand0 trace5 =
      (trace6, [GEvent.miss, GEvent.gameOver 0, GEvent.miss, GEvent.gameOver 0]) := by
  norm_num [gameLoop, dtOf, update, spawnStep, spawnTile, newTileOf, jsRound,
    lookup_normal, normalSetting, fallLoop, Tile.update, endGame,
    height, width, trace0, trace2, trace3, trace4, trace5, trace6, tileA1, tileA2, tileC1, rand0]

/-- The state before the long frame of the concrete run is reachable. -/
lemma trace5_reachable : Reachable trace5 := by
  have h0 : Reachable trace0 := by
    have h := Reachable.init
    rwa [initState_eq] at h
  have h1 : Reachable trace1 := by
    have h := Reachable.step_pointer 0 0 h0
    rwa [trace_step1] at h
  have h2 : Reachable trace2 := by
    have h := Reachable.step_pointer 0 0 h1
    rwa [trace_step2] at h
  have h3 : Reachable trace3 := by
    have h := Reachable.step_tick 1000 rand0 rand0_valid h2
    rwa [trace_step3] at h
  have h4 : Reachable trace4 := by
    have h := Reachable.step_tick 1800 rand0 rand0_valid h3
    rwa [trace_step4] at h
  have h := Reachable.step_tick 2600 rand0 rand0_valid h4
  rwa [trace_step5] at h

/-- The end state of the concrete run is reachable. -/
lemma trace6_reachable : Reachable trace6 := by
  have h := Reachable.step_tick 7300 rand0 rand0_valid trace5_reachable
  rwa [trace_step6] at h

/-! ## Claim C1 -/

/-- Claim C1, corrected.  The original claim asserts that every reachable state
has `lives ≥ 0`; that fails (see the counterexample), because the tile loop of
`update` keeps removing tiles and decrementing `lives` after `endGame` has
already fired within the same frame.  What does hold for every state reachable
by start/restart, frame ticks, pointer input and key hits is the second half
of the claim, in the strengthened form: whenever `lives ≤ 0` (not merely
`= 0`), the running flag is false. -/
theorem c1_lives_invariant (s : GState) (h : Reachable s) :
    0 < s.lives ∨ s.running = false :=
  reachable_lives h

/-- Witness for C1 at the initial state. -/
theorem c1_lives_invariant_witness :
    0 < initState.lives ∨ initState.running = false :=
  c1_lives_invariant initState Reachable.init

/-- Counterexample to C1 as stated: a reachable state (normal profile, two
miss-clicks, three frame ticks, then one long frame in which two tiles cross
the bottom while `lives = 1`) whose `lives` equals -1, violating `lives ≥ 0`. -/
theorem c1_lives_counterexample : Reachable trace6 ∧ trace6.lives = -1 :=
  ⟨trace6_reachable, rfl⟩

/-! ## Claim C2 -/

/-- Claim C2, confirmed.  In every `advance(dt)` call the surviving collection
is exactly the moved tiles whose top edge did not pass the bottom boundary,
and `lives` drops by exactly the number of tiles that did pass it (one life
per tile, no double counting, none surviving).  In particular a tile at
`y = 601` with field height 600 is removed by `advance(0)` and lives drops
from 3 to 2. -/
theorem c2_miss_accounting :
    (∀ (st : GState) (dt : ℚ) (r : Rands),
      (update dt r st).1.tiles =
        ((spawnStep dt r st).tiles.map (fun t => t.update dt)).filter
          (fun t => !decide (height < t.y)) ∧
      (update dt r st).1.lives =
        st.lives -
          ((spawnStep dt r st).tiles.map (fun t => t.update dt)).countP
            (fun t => decide (height < t.y))) ∧
    ((update 0 rand0 scenarioB).1.tiles = [] ∧ scenarioB.lives = 3 ∧
      (update 0 rand0 scenarioB).1.lives = 2) := by
  constructor
  · intro st dt r
    have hsf := spawnStep_fields dt r st
    have ht := fallLoop_tiles dt (spawnStep dt r st).tiles (spawnStep dt r st)
    have hl := fallLoop_lives dt (spawnStep dt r st).tiles (spawnStep dt r st)
    constructor
    · simp only [update]
      rw [ht]
    · simp only [update]
      rw [hl, hsf.2.1, List.countP_map]
      rfl
  · refine ⟨?_, ?_, ?_⟩
    · norm_num [update, spawnStep, fallLoop, scenarioB, rawInitState, Tile.update, height]
    · norm_num [scenarioB, rawInitState]
    · norm_num [update, spawnStep, fallLoop, endGame, scenarioB, rawInitState, Tile.update, height]

/-! ## Claim C3 -/

/-- Claim C3, confirmed.  While running, the pointer handler scans tiles in
reverse insertion order: whenever the tile collection splits as
`pre ++ u :: post` with `u` containing the point and nothing after `u`
containing it (so `u` is the most recently spawned hit tile), exactly `u` is
removed and the score rises by exactly one; when no tile contains the point
the miss penalty is applied. -/
theorem c3_pointer_scan (st : GState) (px py : ℚ) (hrun : st.running = true) :
    (∀ pre u post, st.tiles = pre ++ u :: post → u.isPointInside px py = true →
      (∀ v ∈ post, v.isPointInside px py = false) →
      resolvePointer px py st =
        ({ st with tiles := pre ++ post, score := st.score + 1 }, [GEvent.hit])) ∧
    ((∀ v ∈ st.tiles, v.isPointInside px py = false) →
      resolvePointer px py st = penalizeMiss st) := by
  constructor
  · intro pre u post hdec hu hpost
    have hcs := clickScan_removes_last px py pre post u hu hpost
    simp only [resolvePointer, if_pos hrun, hdec, hcs]
  · intro hall
    have hcs := clickScan_eq_none px py st.tiles hall
    simp only [resolvePointer, if_pos hrun, hcs]

/-- Witness for C3: scenario D, a point covered by both tiles; the
most-recently-spawned tile B is the one removed and the score rises by 1. -/
theorem c3_pointer_scan_witness :
    scenarioD.running = true ∧
    pointTileB.isPointInside 10 10 = true ∧
    resolvePointer 10 10 scenarioD =
      ({ scenarioD with tiles := [pointTileA] ++ [], score := scenarioD.score + 1 },
        [GEvent.hit]) := by
  refine ⟨rfl, ?_, ?_⟩
  · norm_num [Tile.isPointInside, pointTileB]
  · exact (c3_pointer_scan scenarioD 10 10 rfl).1 [pointTileA] pointTileB []
      rfl (by norm_num [Tile.isPointInside, pointTileB]) (by simp)

/-! ## Claim C10 -/

/-- Claim C10, confirmed.  A successful pointer hit removes the one hit tile
and increments the score, and changes nothing else: lives, spawn interval,
base fall speed, spawn accumulator, running flag, clock, difficulty and flash
timer are untouched (no difficulty escalation), and only the hit event is
signalled. -/
theorem c10_pointer_frame_effect (st : GState) (px py : ℚ)
    (pre : List Tile) (u : Tile) (post : List Tile)
    (hrun : st.running = true) (hdec : st.tiles = pre ++ u :: post)
    (hu : u.isPointInside px py = true)
    (hpost : ∀ v ∈ post, v.isPointInside px py = false) :
    (resolvePointer px py st).1.tiles = pre ++ post ∧
    (resolvePointer px py st).1.score = st.score + 1 ∧
    (resolvePointer px py st).1.lives = st.lives ∧
    (resolvePointer px py st).1.spawnInterval = st.spawnInterval ∧
    (resolvePointer px py st).1.tileSpeed = st.tileSpeed ∧
    (resolvePointer px py st).1.lastSpawn = st.lastSpawn ∧
    (resolvePointer px py st).1.running = st.running ∧
    (resolvePointer px py st).1.lastTime = st.lastTime ∧
    (resolvePointer px py st).1.difficulty = st.difficulty ∧
    (resolvePointer px py st).1.flashTime = st.flashTime ∧
    (resolvePointer px py st).2 = [GEvent.hit] := by
  have hcs := clickScan_removes_last px py pre post u hu hpost
  simp only [resolvePointer, if_pos hrun, hdec, hcs]
  simp

/-- Witness for C10 at a concrete running state with one tile under the
pointer. -/
theorem c10_pointer_frame_effect_witness :
    frameState.running = true ∧
    frameState.tiles = [] ++ frameTile :: [] ∧
    frameTile.isPointInside 230 320 = true ∧
    (resolvePointer 230 320 frameState).1.score = frameState.score + 1 ∧
    (resolvePointer 230 320 frameState).1.lives = frameState.lives ∧
    (resolvePointer 230 320 frameState).1.spawnInterval = frameState.spawnInterval := by
  have hin : frameTile.isPointInside 230 320 = true := by
    norm_num [Tile.isPointInside, frameTile]
  have h := c10_pointer_frame_effect frameState 230 320 [] frameTile []
    rfl rfl hin (by simp)
  exact ⟨rfl, rfl, hin, h.2.1, h.2.2.1, h.2.2.2.1⟩

/-! ## Claim C7 -/

/-- Claim C7, confirmed.  The start command (the Enter key binding, the only
start entry point reachable while a run is active, since the restart button is
hidden during play) is a no-op while the game is running: the state is
returned unchanged and no side effect or new tick subscription is produced. -/
theorem c7_start_noop (st : GState) (h : st.running = true) : keyStart st = (st, []) := by
  simp only [keyStart, if_pos h]

/-- Witness for C7 at the initial (auto-started, running) state. -/
theorem c7_start_noop_witness :
    initState.running = true ∧ keyStart initState = (initState, []) :=
  ⟨rfl, c7_start_noop initState rfl⟩

/-! ## Claim C4 -/

/-- Claim C4, amended.  While running, the key-hit handler considers exactly
the tiles with `y + h ≥ hitZoneTop` and `y ≤ fieldBottom`, removes the one
with the greatest bottom edge (ties to the first in insertion order),
increments the score by 1, multiplies the base fall speed by 1.002 and
multiplies the spawn interval by 0.998 only when the interval currently
exceeds 380 ms (so one application may leave it slightly below 380 ms, after
which it stays unchanged, rather than being floored at exactly 380 ms); with
no tile in the zone, the miss penalty is applied. -/
theorem c4_keyhit_selection (st : GState) (hrun : st.running = true) :
    ((∃ u ∈ st.tiles, inZone (height - hitZoneHeight) u = true) →
      ∃ pre u post, st.tiles = pre ++ u :: post ∧
        inZone (height - hitZoneHeight) u = true ∧
        (∀ v ∈ pre, inZone (height - hitZoneHeight) v = true → v.y + v.h < u.y + u.h) ∧
        (∀ v ∈ post, inZone (height - hitZoneHeight) v = true → v.y + v.h ≤ u.y + u.h) ∧
        resolveKeyHit st =
          ({ st with
              tiles := pre ++ post
              score := st.score + 1
              tileSpeed := st.tileSpeed * 1.002
              spawnInterval :=
                if st.spawnInterval > 380 then st.spawnInterval * 0.998
                else st.spawnInterval }, [GEvent.hit])) ∧
    ((∀ u ∈ st.tiles, inZone (height - hitZoneHeight) u = false) →
      resolveKeyHit st = penalizeMiss st) := by
  rcases hitScanAux_spec (height - hitZoneHeight) st.tiles 0 none with ⟨h1, h2⟩ |
    ⟨pre, u, post, hdec, hres, hu, -, hpre, hpost⟩
  · constructor
    · rintro ⟨u, hu, hz⟩
      obtain ⟨p, hp, -⟩ := h2 u hu hz
      exact absurd hp (by simp)
    · intro hall
      simp only [resolveKeyHit, if_pos hrun, h1]
  · constructor
    · intro _
      refine ⟨pre, u, post, hdec, hu, hpre, hpost, ?_⟩
      simp only [resolveKeyHit, if_pos hrun, hres]
      rw [hdec]
      simp only [Nat.zero_add]
      rw [eraseIdx_concat]
    · intro hall
      have hzu : inZone (height - hitZoneHeight) u = false := by
        refine hall u ?_
        rw [hdec]
        simp
      rw [hu] at hzu
      exact absurd hzu (by simp)

/-- Witness for C4 at a concrete running state whose only tile is outside the
hit zone, exercising the miss branch. -/
theorem c4_keyhit_selection_witness :
    keyState2.running = true ∧ resolveKeyHit keyState2 = penalizeMiss keyState2 := by
  refine ⟨rfl, (c4_keyhit_selection keyState2 rfl).2 ?_⟩
  intro u hu
  simp only [keyState2, rawInitState, List.mem_singleton] at hu
  subst hu
  norm_num [inZone, lowTile, height, hitZoneHeight]

/-- Counterexample to the C4 floor as stated: from a running state with
spawn interval 380.5 ms and a tile in the hit zone, one key hit succeeds
(score increments) and leaves the spawn interval at 379.739 ms, strictly
below the claimed 380 ms floor. -/
theorem c4_floor_counterexample :
    380 ≤ keyState.spawnInterval ∧
    (resolveKeyHit keyState).1.score = keyState.score + 1 ∧
    (resolveKeyHit keyState).1.spawnInterval < 380 := by
  refine ⟨by norm_num [keyState, rawInitState], ?_, ?_⟩ <;>
    norm_num [resolveKeyHit, hitScanAux, inZone, keyState, zoneTile, rawInitState,
      height, hitZoneHeight]

/-! ## Claim C5 -/

/-- The spawned tile always starts at least 34 px above the top edge. -/
lemma newTileOf_y_le (r : Rands) (st : GState) : (newTileOf r st).y ≤ -34 := by
  simp only [newTileOf]
  have hh := le_max_left (24 : ℚ)
    ((jsRound ((max 40 (min 100 (width * (0.08 + r.r1 * 0.07)))) * (0.5 + r.r2 * 0.6)) : ℤ) : ℚ)
  linarith

lemma newTileOf_speed (r : Rands) (st : GState) :
    (newTileOf r st).speed =
      st.tileSpeed * ((lookupDifficulty st.difficulty).minMult +
        r.r4 * ((lookupDifficulty st.difficulty).maxMult -
          (lookupDifficulty st.difficulty).minMult)) := rfl

/-- On a fresh normal start, the tile spawned by `advance(0.95)` cannot cross
the bottom within that same frame, whatever the random draws in [0,1). -/
lemma scenarioA_no_cross (r : Rands) (hv : r.Valid) :
    ¬ height < ((newTileOf r trace0).update (0.95 : ℚ)).y := by
  obtain ⟨-, -, -, -, -, -, h7, h8⟩ := hv
  have hy := newTileOf_y_le r trace0
  have hsp : (newTileOf r trace0).speed = 110 * (19 / 20 + r.r4 * (1 / 2)) := by
    rw [newTileOf_speed]
    norm_num [trace0, lookup_normal, normalSetting]
  simp only [Tile.update, height, not_lt]
  rw [hsp]
  nlinarith

/-- Claim C5, confirmed.  Per `advance` call at most one tile spawns no matter
how large `dt` is, and when the accumulator exceeds the interval it is reset
to 0 (the overshoot is discarded); scenario A: from a fresh normal start,
`advance(0.95)` spawns exactly one tile, resets the accumulator to 0 and
leaves lives at 3. -/
theorem c5_spawn_throttle :
    (∀ (st : GState) (dt : ℚ) (r : Rands),
      (st.lastSpawn + dt * 1000 > st.spawnInterval →
        (spawnStep dt r st).tiles = st.tiles ++ [newTileOf r st] ∧
        (spawnStep dt r st).lastSpawn = 0) ∧
      (¬ st.lastSpawn + dt * 1000 > st.spawnInterval →
        (spawnStep dt r st).tiles = st.tiles ∧
        (spawnStep dt r st).lastSpawn = st.lastSpawn + dt * 1000) ∧
      (update dt r st).1.tiles.length ≤ st.tiles.length + 1) ∧
    (∀ r : Rands, r.Valid →
      (update (0.95 : ℚ) r initState).1.tiles = [(newTileOf r initState).update 0.95] ∧
      (update (0.95 : ℚ) r initState).1.lastSpawn = 0 ∧
      (update (0.95 : ℚ) r initState).1.lives = 3) := by
  constructor
  · intro st dt r
    refine ⟨(spawnStep_tiles_cases dt r st).1, (spawnStep_tiles_cases dt r st).2, ?_⟩
    have ht := fallLoop_tiles dt (spawnStep dt r st).tiles (spawnStep dt r st)
    have hlen := spawnStep_tiles_length dt r st
    simp only [update]
    rw [ht]
    calc (((spawnStep dt r st).tiles.map (fun t => t.update dt)).filter
            (fun t => !decide (height < t.y))).length
        ≤ ((spawnStep dt r st).tiles.map (fun t => t.update dt)).length :=
          List.length_filter_le _ _
      _ = (spawnStep dt r st).tiles.length := List.length_map _ _
      _ ≤ st.tiles.length + 1 := hlen
  · intro r hv
    rw [initState_eq]
    have hnc := scenarioA_no_cross r hv
    have hspawn := (spawnStep_tiles_cases (0.95 : ℚ) r trace0).1 (by norm_num [trace0])
    have hsf := spawnStep_fields (0.95: ℚ) r trace0
    have ht := fallLoop_tiles (0.95 : ℚ) (spawnStep (0.95:ℚ) r trace0).tiles
      (spawnStep (0.95:ℚ) r trace0)
    have hl := fallLoop_lives (0.95 : ℚ) (spawnStep (0.95:ℚ) r trace0).tiles
      (spawnStep (0.95:ℚ) r trace0)
    have hfl := fallLoop_fields (0.95 : ℚ) (spawnStep (0.95:ℚ) r trace0).tiles
      (spawnStep (0.95:ℚ) r trace0)
    refine ⟨?_, ?_, ?_⟩
    · simp only [update]
      rw [ht, hspawn.1]
      have hnc2 := not_lt.mp hnc
      simp only [trace0] at hnc2
      simp only [trace0, List.nil_append, List.map_cons, List.map_nil, List.filter_cons]
      simp [hnc2]
    · simp only [update]
      rw [hfl.2.2.2.1, hspawn.2]
    · simp only [update]
      rw [hl, hspawn.1, hsf.2.1]
      have hnc2 := not_lt.mp hnc
      simp only [trace0] at hnc2
      simp only [trace0, List.nil_append, List.countP_cons, List.countP_nil]
      simp [hnc2]

/-- Witness for C5: the scenario with the concrete random draws `rand0`. -/
theorem c5_spawn_throttle_witness :
    rand0.Valid ∧
    (update (0.95 : ℚ) rand0 initState).1.tiles = [(newTileOf rand0 initState).update 0.95] ∧
    (update (0.95 : ℚ) rand0 initState).1.lastSpawn = 0 ∧
    (update (0.95 : ℚ) rand0 initState).1.lives = 3 :=
  ⟨rand0_valid, (c5_spawn_throttle.2 rand0 rand0_valid).1,
    (c5_spawn_throttle.2 rand0 rand0_valid).2.1,
    (c5_spawn_throttle.2 rand0 rand0_valid).2.2⟩

/-! ## Claim C6 -/

/-- Claim C6, amended.  Every miss penalty multiplies the base fall speed by
1.06 (a strict increase, the speed being positive) and multiplies the spawn
interval by 0.92 only while the interval exceeds 280 ms (a strict decrease);
once the interval is at or below 280 ms it stays constant.  A single
application from just above 280 ms can land as low as 257.6 ms, so the
reachable-state floor is 257.6 ms (= 0.92 times 280), not 280 ms: every
reachable state keeps its spawn interval strictly above 257.6 ms. -/
theorem c6_escalation :
    (∀ st : GState,
      (penalizeMiss st).1.tileSpeed = st.tileSpeed * 1.06 ∧
      (0 < st.tileSpeed → st.tileSpeed < (penalizeMiss st).1.tileSpeed) ∧
      (280 < st.spawnInterval →
        (penalizeMiss st).1.spawnInterval = st.spawnInterval * 0.92 ∧
        (penalizeMiss st).1.spawnInterval < st.spawnInterval) ∧
      (st.spawnInterval ≤ 280 →
        (penalizeMiss st).1.spawnInterval = st.spawnInterval)) ∧
    (∀ s : GState, Reachable s → 1288 / 5 < s.spawnInterval) := by
  constructor
  · intro st
    obtain ⟨-, hspd, hint, -⟩ := penalizeMiss_proj st
    refine ⟨hspd, ?_, ?_, ?_⟩
    · intro h
      rw [hspd]
      nlinarith
    · intro h
      rw [hint, if_pos h]
      exact ⟨rfl, by nlinarith⟩
    · intro h
      rw [hint, if_neg (not_lt.mpr h)]
  · intro s hs
    exact (reachable_diff hs).1

/-- Witness for C6: strict speed increase at the raw initial state and the
reachable floor bound at the initial state. -/
theorem c6_escalation_witness :
    0 < rawInitState.tileSpeed ∧
    rawInitState.tileSpeed < (penalizeMiss rawInitState).1.tileSpeed ∧
    280 < rawInitState.spawnInterval ∧
    (penalizeMiss rawInitState).1.spawnInterval < rawInitState.spawnInterval ∧
    1288 / 5 < initState.spawnInterval :=
  ⟨by norm_num [rawInitState],
    (c6_escalation.1 rawInitState).2.1 (by norm_num [rawInitState]),
    by norm_num [rawInitState],
    ((c6_escalation.1 rawInitState).2.2.1 (by norm_num [rawInitState])).2,
    c6_escalation.2 initState Reachable.init⟩

/-- Counterexample to the C6 floor as stated: a miss penalty applied with the
spawn interval at 281 ms leaves it at 258.52 ms, strictly below the claimed
280 ms floor. -/
theorem c6_floor_counterexample :
    280 < missState.spawnInterval ∧
    (penalizeMiss missState).1.spawnInterval < 280 := by
  norm_num [penalizeMiss, endGame, missState, rawInitState]

/-! ## Claim C8 -/

/-- Claim C8, amended.  `gameLoop` derives `dt` as the raw, unclamped
difference `(ts - lastTime) / 1000`: the first tick of a run (where
`startGame` reset `lastTime` to 0) yields `dt = 0`, and under a non-decreasing
timestamp stream `dt` is non-negative, in which case no tile with
non-negative speed ever moves upward — but no clamping is performed, so a
decreasing timestamp produces a negative `dt` (see the counterexample). -/
theorem c8_dt_derivation :
    (∀ st : GState, (startGame st).lastTime = 0) ∧
    (∀ (st : GState) (ts : ℚ), st.lastTime = 0 → dtOf st ts = 0) ∧
    (∀ (st : GState) (ts : ℚ), st.lastTime ≠ 0 → st.lastTime ≤ ts → 0 ≤ dtOf st ts) ∧
    (∀ (t : Tile) (dt : ℚ), 0 ≤ dt → 0 ≤ t.speed → t.y ≤ (t.update dt).y) := by
  refine ⟨?_, ?_, ?_, ?_⟩
  · intro st
    rw [startGame_proj]
  · intro st ts h
    simp [dtOf, h]
  · intro st ts h hle
    rw [dtOf, if_neg h]
    have h1 : (0 : ℚ) ≤ ts - st.lastTime := by linarith
    positivity
  · intro t dt h1 h2
    simp only [Tile.update]
    nlinarith

/-- Witness for C8 at concrete inputs: zero clock gives `dt = 0`, a
forward-moving clock gives `dt ≥ 0`, and a non-negative `dt` never moves a
tile up. -/
theorem c8_dt_derivation_witness :
    rawInitState.lastTime = 0 ∧ dtOf rawInitState 500 = 0 ∧
    backState.lastTime ≠ 0 ∧ backState.lastTime ≤ 200 ∧ 0 ≤ dtOf backState 200 ∧
    (0 : ℚ) ≤ 1 ∧ 0 ≤ backTile.speed ∧ backTile.y ≤ (backTile.update 1).y := by
  refine ⟨rfl, c8_dt_derivation.2.1 rawInitState 500 rfl, ?_, ?_, ?_, by norm_num, ?_, ?_⟩
  · norm_num [backState, rawInitState]
  · norm_num [backState, rawInitState]
  · exact c8_dt_derivation.2.2.1 backState 200 (by norm_num [backState, rawInitState])
      (by norm_num [backState, rawInitState])
  · norm_num [backTile]
  · exact c8_dt_derivation.2.2.2 backTile 1 (by norm_num) (by norm_num [backTile])

/-- Counterexample to C8 as stated: with the previous timestamp at 100 ms, a
tick at 50 ms produces `dt = -1/20 < 0` (no clamping), and the tile at
`y = 100` moves up to `y = 95`. -/
theorem c8_negative_dt_counterexample :
    dtOf backState 50 < 0 ∧
    (gameLoop 50 rand0 backState).1.tiles = [{ backTile with y := 95 }] ∧
    ({ backTile with y := 95 } : Tile).y < backTile.y := by
  refine ⟨?_, ?_, ?_⟩ <;>
    norm_num [gameLoop, dtOf, update, spawnStep, fallLoop, Tile.update,
      backState, backTile, rawInitState, height]

/-! ## Claim C9 -/

/-- Claim C9, amended.  When `lives` reaches 0 or below during an `advance`
call, `running` is set to false; but the game-over side effect is signalled
once per tile-removal that observes `lives ≤ 0`, i.e. `k + 1 - lives₀` times
when `k ≥ lives₀` tiles cross the bottom in the same call — exactly once only
when one removal brings lives from 1 to 0, not in general (see the
counterexample with two simultaneous crossings). -/
theorem c9_gameover_signals (st : GState) (dt : ℚ) (r : Rands) (h : 1 ≤ st.lives) :
    ((update dt r st).2.countP isGameOver) =
      (((spawnStep dt r st).tiles.countP
          (fun t => decide (height < (t.update dt).y)) : ℤ) + 1 - st.lives).toNat ∧
    (update dt r st).1.running =
      (if st.lives ≤ ((spawnStep dt r st).tiles.countP
          (fun t => decide (height < (t.update dt).y)) : ℤ)
        then false else st.running) := by
  have hsf := spawnStep_fields dt r st
  have hg := fallLoop_gameOvers dt (spawnStep dt r st).tiles (spawnStep dt r st)
  have hr := fallLoop_running dt (spawnStep dt r st).tiles (spawnStep dt r st)
  constructor
  · simp only [update]
    rw [hg, hsf.2.1]
    omega
  · simp only [update]
    rw [hr, hsf.2.1, hsf.2.2.1]
    split_ifs <;> first | rfl | (exfalso; omega)

/-- Witness for C9: one tile crossing with `lives = 1` signals game over
exactly once and stops the run. -/
theorem c9_gameover_signals_witness :
    1 ≤ overState1.lives ∧
    ((update 0 rand0 overState1).2.countP isGameOver) = 1 ∧
    (update 0 rand0 overState1).1.running = false := by
  have h := c9_gameover_signals overState1 0 rand0 (by norm_num [overState1, rawInitState])
  refine ⟨by norm_num [overState1, rawInitState], ?_, ?_⟩
  · rw [h.1]
    norm_num [spawnStep, overState1, overTile1, rawInitState, Tile.update, height,
      List.countP_cons]
  · rw [h.2]
    norm_num [spawnStep, overState1, overTile1, rawInitState, Tile.update, height,
      List.countP_cons]

/-- Counterexample to C9 as stated: with `lives = 1` and two tiles below the
boundary, one `advance(0)` call signals the game-over side effect twice; the
same double signal occurs on a reachable run (normal start, two miss-clicks,
three spawning frames, then the 7300 ms frame in which both airborne tiles
cross at once). -/
theorem c9_double_signal_counterexample :
    (overState2.lives = 1 ∧
      ((update 0 rand0 overState2).2.countP isGameOver) = 2) ∧
    (Reachable trace5 ∧ trace5.running = true ∧ trace5.lives = 1 ∧
      ((gameLoop 7300 rand0 trace5).2.countP isGameOver) = 2) := by
  refine ⟨⟨?_, ?_⟩, trace5_reachable, rfl, rfl, ?_⟩
  · norm_num [overState2, rawInitState]
  · norm_num [update, spawnStep, fallLoop, endGame, overState2, overTile1, overTile2,
      rawInitState, Tile.update, height, isGameOver, List.countP_cons, List.countP_append]
  · rw [trace_step6]
    norm_num [isGameOver, List.countP_cons]

end HittingTiles
